import Mathlib

/-!
Verification development for the two contract-bearing components of the
repository: the ML vector blob codec (`as_ml_vector.c` / `as_ml_vector.h`)
and the semantic-version utility (`as_version.c`).

Conventions of the shallow embedding:
* A C byte buffer (`uint8_t*` plus a length, or the payload of `as_bytes`)
  is a `List Nat` whose entries are byte values; every buffer built or read
  by the modelled code keeps entries below 256.
* C `uint32_t` arithmetic is `Nat` arithmetic reduced `% 4294967296` at the
  points where the C source performs 32-bit operations.
* Fallible functions return `Except AsStatus _`; out-parameter behaviour,
  where a claim depends on it, is modelled by `_st` variants that thread the
  previous contents of the out-parameters.
* NULL-pointer guards of the C source (`!vector`, `!data`, ...) concern
  memory and are outside the embedding: every modelled argument corresponds
  to a non-NULL pointer.
-/

deriving instance DecidableEq for Except

namespace AerospikeSpec

/-- Status codes used by the modelled functions (`as_status.h`).
Only the codes the two source files actually return are included. -/
inductive AsStatus where
  | AEROSPIKE_OK
  | AEROSPIKE_ERR_PARAM
  | AEROSPIKE_ERR_CLIENT
deriving DecidableEq, Repr

/-- `as_vector` (as used by the codec): `item_size` is the byte width of one
element, `items` the stored elements, each one a list of bytes.  The C
struct's `size` field is `items.length` and its flat `list` buffer is the
concatenation of the items. -/
structure AsVector where
  item_size : Nat
  items : List (List Nat)
deriving DecidableEq, Repr

/-- The C struct's `size` field: number of stored elements. -/
def AsVector.size (v : AsVector) : Nat := v.items.length

/-- The C struct's flat `list` buffer: all element bytes, concatenated. -/
def AsVector.list (v : AsVector) : List Nat := v.items.flatten

/-- `AS_ML_VECTOR_MAGIC_NUMBER` ("VECT"). -/
def AS_ML_VECTOR_MAGIC_NUMBER : Nat := 0x56454354

/-- `AS_ML_VECTOR_VERSION`. -/
def AS_ML_VECTOR_VERSION : Nat := 0x00000001

/-- Big-endian encoding of a `uint32` value, as written by
`cf_swap_to_be32` followed by a 4-byte store. -/
def be32 (x : Nat) : List Nat :=
  [x / 16777216 % 256, x / 65536 % 256, x / 256 % 256, x % 256]

/-- Big-endian read of a `uint32` from the first four bytes of a buffer
(`cf_swap_from_be32(*(uint32_t*)p)`).  The catch-all alternative is never
reached by the modelled code: every read is guarded by a length check. -/
def readBe32 : List Nat → Nat
  | b0 :: b1 :: b2 :: b3 :: _ => b0 * 16777216 + b1 * 65536 + b2 * 256 + b3
  | _ => 0

/-- Big-endian read of a `uint32` at byte offset `off`. -/
def readBe32At (bytes : List Nat) (off : Nat) : Nat :=
  readBe32 (bytes.drop off)

/-- `as_ml_vector_element_size`: byte width for an element-type tag,
0 for any tag outside the four known ones. -/
def as_ml_vector_element_size (element_type : Nat) : Nat :=
  if element_type = 1 then 4
  else if element_type = 3 then 4
  else if element_type = 2 then 8
  else if element_type = 4 then 8
  else 0

/-- One iteration of the `as_vector_append` copy loop: `size` bytes read at
the front of `data`.  When the C source reads past the end of the buffer the
bytes read are unspecified (heap contents); the model fixes them to 0. -/
def readItem (data : List Nat) (size : Nat) : List Nat :=
  data.take size ++ List.replicate (size - (data.take size).length) 0

/-- The full copy loop of `as_ml_vector_deserialize` (and of the
`as_ml_vector_init_*` functions): `count` elements of `size` bytes each,
taken consecutively from `data`. -/
def readItems : Nat → Nat → List Nat → List (List Nat)
  | 0, _, _ => []
  | count + 1, size, data => readItem data size :: readItems count size (data.drop size)

/-- `as_ml_vector_init_float32`.  `data` is the caller's `float*` array as a
flat byte list (one float is 4 bytes, in native order). -/
def as_ml_vector_init_float32 (data : List Nat) (count : Nat) :
    Except AsStatus AsVector :=
  if count = 0 then .error .AEROSPIKE_ERR_PARAM
  else .ok ⟨4, readItems count 4 data⟩

/-- `as_ml_vector_init_float64`. -/
def as_ml_vector_init_float64 (data : List Nat) (count : Nat) :
    Except AsStatus AsVector :=
  if count = 0 then .error .AEROSPIKE_ERR_PARAM
  else .ok ⟨8, readItems count 8 data⟩

/-- `as_ml_vector_init_int32`. -/
def as_ml_vector_init_int32 (data : List Nat) (count : Nat) :
    Except AsStatus AsVector :=
  if count = 0 then .error .AEROSPIKE_ERR_PARAM
  else .ok ⟨4, readItems count 4 data⟩

/-- `as_ml_vector_init_int64`. -/
def as_ml_vector_init_int64 (data : List Nat) (count : Nat) :
    Except AsStatus AsVector :=
  if count = 0 then .error .AEROSPIKE_ERR_PARAM
  else .ok ⟨8, readItems count 8 data⟩

/-- `as_ml_vector_serialize`.  The returned list is the `as_bytes` buffer.
`data_size` is computed in `uint32_t`, hence the `% 4294967296`; `memcpy`
copies exactly `data_size` bytes of the vector's flat buffer.  (`malloc`
failure, which returns `AEROSPIKE_ERR_CLIENT`, is not modelled: allocation
always succeeds in the embedding.) -/
def as_ml_vector_serialize (vector : AsVector) (element_type : Nat) :
    Except AsStatus (List Nat) :=
  if vector.size = 0 then .error .AEROSPIKE_ERR_PARAM
  else if as_ml_vector_element_size element_type = 0 then .error .AEROSPIKE_ERR_PARAM
  else if vector.item_size ≠ as_ml_vector_element_size element_type then
    .error .AEROSPIKE_ERR_PARAM
  else
    .ok (be32 AS_ML_VECTOR_MAGIC_NUMBER ++ be32 AS_ML_VECTOR_VERSION ++
         be32 (vector.size % 4294967296) ++ be32 (element_type % 4294967296) ++
         vector.list.take (vector.size * as_ml_vector_element_size element_type % 4294967296))

/-- `as_ml_vector_deserialize` (pure view: the two out-parameters are the
payload of `.ok`).  The expected-size comparison mirrors the C source:
`element_count * element_size` is a `uint32_t` product and `16 + ...` a
`uint32_t` sum, both reduced `% 4294967296`. -/
def as_ml_vector_deserialize (bytes : List Nat) :
    Except AsStatus (AsVector × Nat) :=
  if bytes.length < 16 then .error .AEROSPIKE_ERR_PARAM
  else if readBe32At bytes 0 ≠ AS_ML_VECTOR_MAGIC_NUMBER then .error .AEROSPIKE_ERR_PARAM
  else if readBe32At bytes 4 ≠ AS_ML_VECTOR_VERSION then .error .AEROSPIKE_ERR_PARAM
  else if as_ml_vector_element_size (readBe32At bytes 12) = 0 then .error .AEROSPIKE_ERR_PARAM
  else if bytes.length ≠
      (16 + readBe32At bytes 8 * as_ml_vector_element_size (readBe32At bytes 12) % 4294967296)
        % 4294967296 then
    .error .AEROSPIKE_ERR_PARAM
  else
    .ok (⟨as_ml_vector_element_size (readBe32At bytes 12),
          readItems (readBe32At bytes 8) (as_ml_vector_element_size (readBe32At bytes 12))
            (bytes.drop 16)⟩,
         readBe32At bytes 12)

/-- `as_ml_vector_deserialize` with the out-parameters made explicit:
`v0` and `t0` are the contents of `*vector` and `*element_type` on entry.
Every error return in the C source happens before `as_vector_init` and
before the write to `*element_type`, which is what the early tuples with
`v0`/`t0` record. -/
def as_ml_vector_deserialize_st (bytes : List Nat) (v0 : AsVector) (t0 : Nat) :
    AsStatus × AsVector × Nat :=
  if bytes.length < 16 then (.AEROSPIKE_ERR_PARAM, v0, t0)
  else if readBe32At bytes 0 ≠ AS_ML_VECTOR_MAGIC_NUMBER then (.AEROSPIKE_ERR_PARAM, v0, t0)
  else if readBe32At bytes 4 ≠ AS_ML_VECTOR_VERSION then (.AEROSPIKE_ERR_PARAM, v0, t0)
  else if as_ml_vector_element_size (readBe32At bytes 12) = 0 then (.AEROSPIKE_ERR_PARAM, v0, t0)
  else if bytes.length ≠
      (16 + readBe32At bytes 8 * as_ml_vector_element_size (readBe32At bytes 12) % 4294967296)
        % 4294967296 then
    (.AEROSPIKE_ERR_PARAM, v0, t0)
  else
    (.AEROSPIKE_OK,
     ⟨as_ml_vector_element_size (readBe32At bytes 12),
      readItems (readBe32At bytes 8) (as_ml_vector_element_size (readBe32At bytes 12))
        (bytes.drop 16)⟩,
     readBe32At bytes 12)

/-- `as_version`: four `uint16_t` components.  Fields are `Nat`; a value
that can exist in the C struct has every component below 65536. -/
structure AsVersion where
  major : Nat
  minor : Nat
  patch : Nat
  build : Nat
deriving DecidableEq, Repr

/-- C `isspace` on a byte, "C" locale (space and the five control
whitespace characters). -/
def cIsSpace (b : Nat) : Bool :=
  b == 32 || b == 9 || b == 10 || b == 11 || b == 12 || b == 13

/-- C `isdigit` on a byte. -/
def cIsDigit (b : Nat) : Bool :=
  48 ≤ b && b ≤ 57

/-- The copy condition of the scan loop in `as_version_from_string`:
digit or `'.'` (46). -/
def cIsDigitDot (b : Nat) : Bool :=
  cIsDigit b || b == 46

/-- Decimal value of a digit string (most significant first). -/
def digitsToNat (ds : List Nat) : Nat :=
  ds.foldl (fun acc b => acc * 10 + (b - 48)) 0

/-- One `%hu` conversion of `sscanf` on the scratch buffer: consume a
maximal non-empty run of digits and return its value together with the rest
of the input.  The buffer holds only digits and dots, so the
whitespace-skipping and sign handling of a general `%hu` never trigger and
are not modelled.  Overflow of a component beyond `uint16_t` is unspecified
in C (flagged as an open question in the source's documentation); the model
wraps `% 65536`, and no theorem below exercises that corner. -/
def scanHu (s : List Nat) : Option (Nat × List Nat) :=
  let ds := s.takeWhile cIsDigit
  if ds.isEmpty then none
  else some (digitsToNat ds % 65536, s.drop ds.length)

/-- One `".%hu"` directive pair of the format string: a literal `'.'` (46)
followed by a `%hu` conversion; it fails when either part fails. -/
def scanDotHu (s : List Nat) : Option (Nat × List Nat) :=
  match s with
  | b :: rest => if b = 46 then scanHu rest else none
  | [] => none

/-- `sscanf(buf, "%hu.%hu.%hu.%hu", ...)`: the list of successfully
converted values, in order; processing stops at the first directive that
fails.  The list's length is `sscanf`'s return value when at least one
conversion succeeds; a return of 0 or `EOF` both become `[]`, which the
caller treats identically. -/
def sscanf4hu (s : List Nat) : List Nat :=
  match scanHu s with
  | none => []
  | some (v1, r1) =>
    match scanDotHu r1 with
    | none => [v1]
    | some (v2, r2) =>
      match scanDotHu r2 with
      | none => [v1, v2]
      | some (v3, r3) =>
        match scanDotHu r3 with
        | none => [v1, v2, v3]
        | some (v4, _) => [v1, v2, v3, v4]

/-- `as_version_from_string` with the out-parameter explicit: `ver0` is the
contents of `*ver` on entry, `str` the argument string as a byte list.  The
scratch buffer keeps at most 63 copied characters (`sizeof(buf) - 1`).
`sscanf` assigns the first `rv` fields of the struct in declaration order,
which is what `ver1` records; the remaining fields keep their previous
contents. -/
def as_version_from_string_st (ver0 : AsVersion) (str : List Nat) :
    Bool × AsVersion :=
  let buf := ((str.dropWhile cIsSpace).takeWhile cIsDigitDot).take 63
  let vals := sscanf4hu buf
  let ver1 : AsVersion :=
    { major := vals.getD 0 ver0.major
      minor := vals.getD 1 ver0.minor
      patch := vals.getD 2 ver0.patch
      build := vals.getD 3 ver0.build }
  if vals.length < 3 then (false, ver1)
  else if vals.length = 3 then (true, { ver1 with build := 0 })
  else (true, ver1)

/-- Pure view of `as_version_from_string`: `some` of the parsed version on
a `true` return, `none` on `false`.  On success every component of the
result is determined by the input (the first three come from the scan and
`build` from the scan or the explicit zeroing), so the initial struct
contents are irrelevant and are fixed to zeros. -/
def as_version_from_string (str : List Nat) : Option AsVersion :=
  match as_version_from_string_st ⟨0, 0, 0, 0⟩ str with
  | (true, ver) => some ver
  | (false, _) => none

/-- Recursion core for `decimalDigits`; the first argument is fuel and is
always at least `n + 1`, so the `0` alternative is never reached. -/
def decimalDigitsCore : Nat → Nat → List Nat
  | 0, _ => []
  | fuel + 1, n =>
    if n < 10 then [48 + n]
    else decimalDigitsCore fuel (n / 10) ++ [48 + n % 10]

/-- Decimal digits of `n`, most significant first, no padding (the
rendering of one `%u`-family conversion of `snprintf`). -/
def decimalDigits (n : Nat) : List Nat :=
  decimalDigitsCore (n + 1) n

/-- `as_version_to_string`: `snprintf(str, size, "%hu.%hu.%hu.%hu", ...)`
as a byte list.  The truncation `snprintf` applies when the caller's buffer
is too small is a property of the caller's buffer, not of the rendering,
and is not modelled. -/
def as_version_to_string (ver : AsVersion) : List Nat :=
  decimalDigits ver.major ++ 46 :: decimalDigits ver.minor ++
    46 :: decimalDigits ver.patch ++ 46 :: decimalDigits ver.build

/-- `as_version_compare`: each `uint16_t` field promotes to `int`, so the
returned difference is the exact signed difference. -/
def as_version_compare (ver1 ver2 : AsVersion) : Int :=
  if ver1.major ≠ ver2.major then (ver1.major : Int) - (ver2.major : Int)
  else if ver1.minor ≠ ver2.minor then (ver1.minor : Int) - (ver2.minor : Int)
  else if ver1.patch ≠ ver2.patch then (ver1.patch : Int) - (ver2.patch : Int)
  else if ver1.build ≠ ver2.build then (ver1.build : Int) - (ver2.build : Int)
  else 0

/-- The byte list of a Lean string literal, used to state claims about
concrete C strings. -/
def strBytes (s : String) : List Nat :=
  s.toList.map Char.toNat

/-- Specification-side helper for C8: the first nonzero entry of a list of
signed differences, 0 when all entries are zero. -/
def firstNonzero : List Int → Int
  | [] => 0
  | x :: xs => if x = 0 then firstNonzero xs else x

/-- Specification-side helper for C8: strict lexicographic order on
`(major, minor, patch, build)`, defined independently of the code. -/
def versionLexLt (a b : AsVersion) : Prop :=
  a.major < b.major ∨ (a.major = b.major ∧ (a.minor < b.minor ∨ (a.minor = b.minor ∧
    (a.patch < b.patch ∨ (a.patch = b.patch ∧ a.build < b.build)))))

example : strBytes "7.1" = [55, 46, 49] := by decide

example : as_version_from_string (strBytes "7.1.0.2") = some ⟨7, 1, 0, 2⟩ := by decide

example : as_version_from_string (strBytes "7.1.0.2-1-gabcdef") = some ⟨7, 1, 0, 2⟩ := by
  decide

example : as_version_from_string (strBytes "7.1.0") = some ⟨7, 1, 0, 0⟩ := by decide

example : as_version_from_string (strBytes "  7.1.0") = some ⟨7, 1, 0, 0⟩ := by decide

example : as_version_from_string (strBytes "7.1") = none := by decide

example : as_version_from_string_st ⟨0, 0, 0, 0⟩ (strBytes "7.1") =
    (false, ⟨7, 1, 0, 0⟩) := by decide

example : as_version_to_string ⟨7, 1, 0, 2⟩ = strBytes "7.1.0.2" := by decide

example : as_ml_vector_serialize ⟨4, [[1, 2, 3, 4]]⟩ 1 =
    .ok [86, 69, 67, 84, 0, 0, 0, 1, 0, 0, 0, 1, 0, 0, 0, 1, 1, 2, 3, 4] := by decide

example : as_ml_vector_deserialize
    [86, 69, 67, 84, 0, 0, 0, 1, 0, 0, 0, 1, 0, 0, 0, 1, 1, 2, 3, 4] =
    .ok (⟨4, [[1, 2, 3, 4]]⟩, 1) := by decide

example : as_ml_vector_deserialize
    [86, 69, 67, 84, 0, 0, 0, 1, 0, 0, 0, 0, 0, 0, 0, 1] =
    .ok (⟨4, []⟩, 1) := by decide

/-- A digit-or-dot byte is never a whitespace byte. -/
theorem cIsDigitDot_not_space {b : Nat} (h : cIsDigitDot b = true) :
    cIsSpace b = false := by
  simp only [cIsDigitDot, cIsDigit, cIsSpace, Bool.or_eq_true, Bool.and_eq_true,
    beq_iff_eq, decide_eq_true_eq, Bool.or_eq_false_iff, beq_eq_false_iff_ne,
    ne_eq] at *
  omega

/-- `as_version_from_string_st` depends on its input string only through
the scratch buffer the scan loop builds. -/
theorem from_string_st_congr (ver0 : AsVersion) (s1 s2 : List Nat)
    (h : ((s1.dropWhile cIsSpace).takeWhile cIsDigitDot).take 63 =
         ((s2.dropWhile cIsSpace).takeWhile cIsDigitDot).take 63) :
    as_version_from_string_st ver0 s1 = as_version_from_string_st ver0 s2 := by
  unfold as_version_from_string_st
  rw [h]

/-- Reading back a big-endian 32-bit field recovers the encoded value. -/
theorem readBe32_be32_append (x : Nat) (rest : List Nat) (hx : x < 4294967296) :
    readBe32 (be32 x ++ rest) = x := by
  show x / 16777216 % 256 * 16777216 + x / 65536 % 256 * 65536 +
    x / 256 % 256 * 256 + x % 256 = x
  omega

/-- Field reads, payload and length of a well-formed 16-byte header. -/
theorem header_fields (a b c d : Nat) (payload : List Nat)
    (ha : a < 4294967296) (hb : b < 4294967296)
    (hc : c < 4294967296) (hd : d < 4294967296) :
    readBe32At (be32 a ++ (be32 b ++ (be32 c ++ (be32 d ++ payload)))) 0 = a ∧
    readBe32At (be32 a ++ (be32 b ++ (be32 c ++ (be32 d ++ payload)))) 4 = b ∧
    readBe32At (be32 a ++ (be32 b ++ (be32 c ++ (be32 d ++ payload)))) 8 = c ∧
    readBe32At (be32 a ++ (be32 b ++ (be32 c ++ (be32 d ++ payload)))) 12 = d ∧
    (be32 a ++ (be32 b ++ (be32 c ++ (be32 d ++ payload)))).drop 16 = payload ∧
    (be32 a ++ (be32 b ++ (be32 c ++ (be32 d ++ payload)))).length =
      16 + payload.length := by
  refine ⟨?_, ?_, ?_, ?_, rfl, by simp [be32]; omega⟩
  · exact readBe32_be32_append a _ ha
  · show readBe32 (be32 b ++ (be32 c ++ (be32 d ++ payload))) = b
    exact readBe32_be32_append b _ hb
  · show readBe32 (be32 c ++ (be32 d ++ payload)) = c
    exact readBe32_be32_append c _ hc
  · show readBe32 (be32 d ++ payload) = d
    exact readBe32_be32_append d _ hd

/-- A non-zero element-size lookup pins the size to 4 or 8 and the tag to a
value below `2^32` (the four known tags are 1..4). -/
theorem element_size_pos (t : Nat) (h : as_ml_vector_element_size t ≠ 0) :
    (as_ml_vector_element_size t = 4 ∨ as_ml_vector_element_size t = 8) ∧
      t < 4294967296 := by
  unfold as_ml_vector_element_size at *
  split_ifs at * <;> omega

/-- The three `AEROSPIKE_ERR_PARAM` guards of `as_ml_vector_serialize` all
fail on a successful call, and the blob is the header/payload concatenation
the source builds. -/
theorem serialize_eq (v : AsVector) (t : Nat) (blob : List Nat)
    (h : as_ml_vector_serialize v t = .ok blob) :
    v.size ≠ 0 ∧ as_ml_vector_element_size t ≠ 0 ∧
    v.item_size = as_ml_vector_element_size t ∧
    blob = be32 AS_ML_VECTOR_MAGIC_NUMBER ++ be32 AS_ML_VECTOR_VERSION ++
      be32 (v.size % 4294967296) ++ be32 (t % 4294967296) ++
      v.list.take (v.size * as_ml_vector_element_size t % 4294967296) := by
  unfold as_ml_vector_serialize at h
  split_ifs at h with h1 h2 h3
  simp only [Except.ok.injEq] at h
  exact ⟨h1, h2, not_ne_iff.mp h3, h.symm⟩

/-- The success branch of `as_ml_vector_serialize`, explicitly. -/
theorem serialize_ok (v : AsVector) (t : Nat) (h1 : v.size ≠ 0)
    (h2 : as_ml_vector_element_size t ≠ 0)
    (h3 : v.item_size = as_ml_vector_element_size t) :
    as_ml_vector_serialize v t =
      .ok (be32 AS_ML_VECTOR_MAGIC_NUMBER ++ be32 AS_ML_VECTOR_VERSION ++
        be32 (v.size % 4294967296) ++ be32 (t % 4294967296) ++
        v.list.take (v.size * as_ml_vector_element_size t % 4294967296)) := by
  unfold as_ml_vector_serialize
  rw [if_neg h1, if_neg h2, if_neg (not_not_intro h3)]

/-- Length of a concatenation of equal-width chunks. -/
theorem flatten_length_const (n : Nat) :
    ∀ l : List (List Nat), (∀ it ∈ l, it.length = n) →
      l.flatten.length = l.length * n := by
  intro l
  induction l with
  | nil => simp
  | cons a l ih =>
    intro h
    have ha := h a (by simp)
    have hl := ih (fun it hit => h it (by simp [hit]))
    simp only [List.flatten_cons, List.length_append, List.length_cons, ha, hl,
      Nat.succ_mul]
    omega

/-- A well-formed vector's flat buffer holds `size * item_size` bytes. -/
theorem list_length_of_wf (v : AsVector)
    (hwf : ∀ it ∈ v.items, it.length = v.item_size) :
    v.list.length = v.size * v.item_size :=
  flatten_length_const v.item_size v.items hwf

/-- The copy loop of the decoder recovers the chunks a flat buffer was
concatenated from. -/
theorem readItems_flatten (n : Nat) :
    ∀ l : List (List Nat), (∀ it ∈ l, it.length = n) →
      readItems l.length n l.flatten = l := by
  intro l
  induction l with
  | nil => intro _; rfl
  | cons a l ih =>
    intro h
    have ha := h a (by simp)
    have hl := ih (fun it hit => h it (by simp [hit]))
    show readItems (l.length + 1) n (a ++ l.flatten) = a :: l
    rw [readItems]
    congr 1
    · unfold readItem
      rw [List.take_left' ha]
      simp [ha]
    · rw [List.drop_left' ha]
      exact hl

/-- C2 (counterexample).  A 16-byte blob whose header declares
`count = 2^30` elements of type tag 1 (element size 4) is accepted by
`as_ml_vector_deserialize`, although its actual length 16 differs from
`16 + count * element_size = 16 + 2^32` computed in exact arithmetic: the
size check multiplies in `uint32_t`, and `2^30 * 4` wraps to 0. -/
theorem c2_size_check_counterexample :
    (∃ r, as_ml_vector_deserialize
        [86, 69, 67, 84, 0, 0, 0, 1, 64, 0, 0, 0, 0, 0, 0, 1] = .ok r) ∧
    ([86, 69, 67, 84, 0, 0, 0, 1, 64, 0, 0, 0, 0, 0, 0, 1] : List Nat).length ≠
      16 + readBe32At [86, 69, 67, 84, 0, 0, 0, 1, 64, 0, 0, 0, 0, 0, 0, 1] 8 *
        as_ml_vector_element_size
          (readBe32At [86, 69, 67, 84, 0, 0, 0, 1, 64, 0, 0, 0, 0, 0, 0, 1] 12) := by
  refine ⟨⟨(⟨4, readItems 1073741824 4 []⟩, 1), rfl⟩, by decide⟩

/-- C2 (amended).  Every blob accepted by `as_ml_vector_deserialize` has
byte length equal to `(16 + count * element_size % 2^32) % 2^32` with
`count` and `element_size` read from the header — the product and the sum
are `uint32_t` operations, not exact arithmetic.  In particular a valid
blob truncated by trailing bytes is rejected whenever its header's
`count * element_size` does not overflow `uint32_t`. -/
theorem c2_size_check_amended (bytes : List Nat) (r : AsVector × Nat)
    (h : as_ml_vector_deserialize bytes = .ok r) :
    bytes.length =
      (16 + readBe32At bytes 8 * as_ml_vector_element_size (readBe32At bytes 12)
        % 4294967296) % 4294967296 := by
  unfold as_ml_vector_deserialize at h
  split_ifs at h with h1 h2 h3 h4 h5
  · omega

/-- Witness for `c2_size_check_amended` at a concrete accepted blob. -/
theorem c2_size_check_amended_witness :
    ([86, 69, 67, 84, 0, 0, 0, 1, 0, 0, 0, 1, 0, 0, 0, 1, 9, 9, 9, 9] : List Nat).length =
      (16 + readBe32At [86, 69, 67, 84, 0, 0, 0, 1, 0, 0, 0, 1, 0, 0, 0, 1, 9, 9, 9, 9] 8 *
        as_ml_vector_element_size
          (readBe32At [86, 69, 67, 84, 0, 0, 0, 1, 0, 0, 0, 1, 0, 0, 0, 1, 9, 9, 9, 9] 12)
        % 4294967296) % 4294967296 :=
  c2_size_check_amended _ (⟨4, [[9, 9, 9, 9]]⟩, 1) (by decide)

/-- C3 (counterexample).  The 16-byte blob with valid magic and version,
count field 0 and type tag 1 is accepted by `as_ml_vector_deserialize` and
yields a vector with `count = 0`: the decoder has no zero-count check. -/
theorem c3_zero_count_counterexample :
    as_ml_vector_deserialize [86, 69, 67, 84, 0, 0, 0, 1, 0, 0, 0, 0, 0, 0, 0, 1] =
      .ok (⟨4, []⟩, 1) ∧ (AsVector.mk 4 []).size = 0 := by decide

/-- C3 (amended).  Each of the four construction entry points fails with
`AEROSPIKE_ERR_PARAM` when `count == 0`; `as_ml_vector_deserialize`,
however, does accept a blob whose count field is 0 and returns an empty
vector (the zero-count rejection exists only at construction time). -/
theorem c3_zero_count_amended :
    (∀ data : List Nat, as_ml_vector_init_float32 data 0 = .error .AEROSPIKE_ERR_PARAM) ∧
    (∀ data : List Nat, as_ml_vector_init_float64 data 0 = .error .AEROSPIKE_ERR_PARAM) ∧
    (∀ data : List Nat, as_ml_vector_init_int32 data 0 = .error .AEROSPIKE_ERR_PARAM) ∧
    (∀ data : List Nat, as_ml_vector_init_int64 data 0 = .error .AEROSPIKE_ERR_PARAM) ∧
    as_ml_vector_deserialize [86, 69, 67, 84, 0, 0, 0, 1, 0, 0, 0, 0, 0, 0, 0, 1] =
      .ok (⟨4, []⟩, 1) :=
  ⟨fun _ => rfl, fun _ => rfl, fun _ => rfl, fun _ => rfl, by decide⟩

/-- C4 (counterexample).  A blob with a wrong magic number and a blob with
a correct magic number but unsupported version both fail with the same
error `AEROSPIKE_ERR_PARAM`: the decoder does not distinguish the two
failure causes. -/
theorem c4_error_categories_counterexample :
    as_ml_vector_deserialize [99, 69, 67, 84, 0, 0, 0, 1, 0, 0, 0, 1, 0, 0, 0, 1] =
      .error .AEROSPIKE_ERR_PARAM ∧
    as_ml_vector_deserialize [86, 69, 67, 84, 0, 0, 0, 9, 0, 0, 0, 1, 0, 0, 0, 1] =
      .error .AEROSPIKE_ERR_PARAM ∧
    as_ml_vector_deserialize [99, 69, 67, 84, 0, 0, 0, 1, 0, 0, 0, 1, 0, 0, 0, 1] =
      as_ml_vector_deserialize [86, 69, 67, 84, 0, 0, 0, 9, 0, 0, 0, 1, 0, 0, 0, 1] := by
  decide

/-- C4 (amended).  For every blob of at least 16 bytes, a magic-number
mismatch fails with `AEROSPIKE_ERR_PARAM`, and a correct magic number
followed by an unsupported version also fails with `AEROSPIKE_ERR_PARAM`:
the two failure causes produce the same error result, not distinct ones. -/
theorem c4_error_categories_amended (bytes : List Nat) (hlen : 16 ≤ bytes.length) :
    (readBe32At bytes 0 ≠ AS_ML_VECTOR_MAGIC_NUMBER →
      as_ml_vector_deserialize bytes = .error .AEROSPIKE_ERR_PARAM) ∧
    (readBe32At bytes 0 = AS_ML_VECTOR_MAGIC_NUMBER →
      readBe32At bytes 4 ≠ AS_ML_VECTOR_VERSION →
      as_ml_vector_deserialize bytes = .error .AEROSPIKE_ERR_PARAM) := by
  have hl : ¬ bytes.length < 16 := by omega
  constructor
  · intro hm
    simp [as_ml_vector_deserialize, hl, hm]
  · intro hm hv
    simp [as_ml_vector_deserialize, hl, hm, hv, AS_ML_VECTOR_MAGIC_NUMBER]

/-- Witness for `c4_error_categories_amended` at two concrete blobs. -/
theorem c4_error_categories_amended_witness :
    as_ml_vector_deserialize [99, 0, 0, 0, 0, 0, 0, 1, 0, 0, 0, 1, 0, 0, 0, 1] =
      .error .AEROSPIKE_ERR_PARAM ∧
    as_ml_vector_deserialize [86, 69, 67, 84, 0, 0, 0, 2, 0, 0, 0, 1, 0, 0, 0, 1] =
      .error .AEROSPIKE_ERR_PARAM :=
  ⟨(c4_error_categories_amended _ (by decide)).1 (by decide),
   (c4_error_categories_amended _ (by decide)).2 (by decide) (by decide)⟩

/-- C6.  `as_ml_vector_serialize` fails with `AEROSPIKE_ERR_PARAM` exactly
when the vector is empty, the declared element type is not one of the four
known tags (`as_ml_vector_element_size` returns 0), or the vector's stored
element width differs from the declared type's width. -/
theorem c6_serialize_errors (v : AsVector) (t : Nat) :
    as_ml_vector_serialize v t = .error .AEROSPIKE_ERR_PARAM ↔
      (v.size = 0 ∨ as_ml_vector_element_size t = 0 ∨
        v.item_size ≠ as_ml_vector_element_size t) := by
  unfold as_ml_vector_serialize
  split_ifs with h1 h2 h3 <;> simp_all

/-- C9 (counterexample).  A failed version parse can leave the out-struct
partially populated: on `"7.1"` the parse fails (fewer than 3 components),
yet `sscanf` has already written `major = 7` and `minor = 1` into the
caller's struct. -/
theorem c9_no_partial_counterexample :
    as_version_from_string_st ⟨0, 0, 0, 0⟩ (strBytes "7.1") = (false, ⟨7, 1, 0, 0⟩) ∧
    (⟨7, 1, 0, 0⟩ : AsVersion) ≠ (⟨0, 0, 0, 0⟩ : AsVersion) := by decide

/-- C9 (amended).  A failed `as_ml_vector_deserialize` writes nothing into
its out-parameters (every error return precedes the writes), and every
error is returned synchronously to the caller; a failed
`as_version_from_string`, however, may leave the out-struct partially
populated with the components parsed before the failure, while still
signalling failure through its `false` return value. -/
theorem c9_no_partial_amended (bytes : List Nat) (v0 : AsVector) (t0 : Nat)
    (h : (as_ml_vector_deserialize_st bytes v0 t0).1 ≠ .AEROSPIKE_OK) :
    (as_ml_vector_deserialize_st bytes v0 t0).2 = (v0, t0) := by
  unfold as_ml_vector_deserialize_st at h ⊢
  split_ifs at h ⊢ <;> simp_all

/-- Witness for `c9_no_partial_amended` at a concrete failing input. -/
theorem c9_no_partial_amended_witness :
    (as_ml_vector_deserialize_st [1, 2, 3] ⟨4, [[1, 2, 3, 4]]⟩ 7).2 =
      (⟨4, [[1, 2, 3, 4]]⟩, 7) :=
  c9_no_partial_amended [1, 2, 3] ⟨4, [[1, 2, 3, 4]]⟩ 7 (by decide)

/-- C7.  The version parser skips leading whitespace, copies only the
digit-and-dot prefix (stopping at the first other byte, so any suffix is
discarded), requires at least 3 parsed components, and defaults `build` to
0 when exactly 3 are parsed; concretely `"7.1.0.2"` parses to `(7,1,0,2)`,
`"7.1.0.2-1-gabcdef"` to `(7,1,0,2)`, `"7.1.0"` and `"  7.1.0"` to
`(7,1,0,0)`, and `"7.1"` fails. -/
theorem c7_version_parse :
    (∀ (ver0 : AsVersion) (b : Nat) (s : List Nat), cIsSpace b = true →
      as_version_from_string_st ver0 (b :: s) = as_version_from_string_st ver0 s) ∧
    (∀ (ver0 : AsVersion) (s t : List Nat), s ≠ [] → s.all cIsDigitDot = true →
      (t.head?.all fun b => ! cIsDigitDot b) = true →
      as_version_from_string_st ver0 (s ++ t) = as_version_from_string_st ver0 s) ∧
    as_version_from_string (strBytes "7.1.0.2") = some ⟨7, 1, 0, 2⟩ ∧
    as_version_from_string (strBytes "7.1.0.2-1-gabcdef") = some ⟨7, 1, 0, 2⟩ ∧
    as_version_from_string (strBytes "7.1.0") = some ⟨7, 1, 0, 0⟩ ∧
    as_version_from_string (strBytes "  7.1.0") = some ⟨7, 1, 0, 0⟩ ∧
    as_version_from_string (strBytes "7.1") = none := by
  refine ⟨?_, ?_, by decide, by decide, by decide, by decide, by decide⟩
  · intro ver0 b s h
    exact from_string_st_congr ver0 (b :: s) s
      (by rw [List.dropWhile_cons, if_pos h])
  · intro ver0 s t hne hall hhead
    apply from_string_st_congr
    obtain ⟨c, s', rfl⟩ : ∃ c s', s = c :: s' := by
      cases s with
      | nil => exact absurd rfl hne
      | cons c s' => exact ⟨c, s', rfl⟩
    have hall' : ∀ b ∈ c :: s', cIsDigitDot b = true := List.all_eq_true.mp hall
    have hc : cIsSpace c = false := cIsDigitDot_not_space (hall' c (by simp))
    have hdrop : ∀ u : List Nat, (c :: u).dropWhile cIsSpace = c :: u := by
      intro u
      rw [List.dropWhile_cons, if_neg (by simp [hc])]
    have htake : (t.takeWhile cIsDigitDot) = [] := by
      cases t with
      | nil => rfl
      | cons d r =>
        simp only [List.head?_cons, Option.all_some, Bool.not_eq_true'] at hhead
        exact List.takeWhile_cons_of_neg (by simp [hhead])
    have hself : List.takeWhile cIsDigitDot (c :: s') = c :: s' := by
      have h2 := @List.takeWhile_append_of_pos Nat cIsDigitDot (c :: s') [] hall'
      simpa using h2
    rw [List.cons_append, hdrop, hdrop, ← List.cons_append,
      List.takeWhile_append_of_pos hall', htake, List.append_nil, hself]

/-- Witness for `c7_version_parse`: the whitespace-skip and suffix-discard
parts applied at concrete inputs. -/
theorem c7_version_parse_witness :
    as_version_from_string_st ⟨0, 0, 0, 0⟩ (32 :: strBytes "7.1.0") =
      as_version_from_string_st ⟨0, 0, 0, 0⟩ (strBytes "7.1.0") ∧
    as_version_from_string_st ⟨0, 0, 0, 0⟩ (strBytes "7.1.0.2" ++ strBytes "-1-g") =
      as_version_from_string_st ⟨0, 0, 0, 0⟩ (strBytes "7.1.0.2") :=
  ⟨c7_version_parse.1 ⟨0, 0, 0, 0⟩ 32 _ (by decide),
   c7_version_parse.2.1 ⟨0, 0, 0, 0⟩ _ _ (by decide) (by decide) (by decide)⟩

/-- C8.  `as_version_compare` is the lexicographic comparison over
`(major, minor, patch, build)`: it returns the signed difference of the
first differing component (the first nonzero of the four differences) and
0 exactly when the versions are equal; negative exactly on lexicographic
less-than; concretely `(7,1,0,2) < (7,1,0,3)`, `(7,2,0,0) > (7,1,9,9)`,
and `(1,0,0,0) = (1,0,0,0)`. -/
theorem c8_version_compare (a b : AsVersion) :
    as_version_compare a b =
      firstNonzero [(a.major : Int) - (b.major : Int), (a.minor : Int) - (b.minor : Int),
        (a.patch : Int) - (b.patch : Int), (a.build : Int) - (b.build : Int)] ∧
    (as_version_compare a b = 0 ↔ a = b) ∧
    (as_version_compare a b < 0 ↔ versionLexLt a b) ∧
    (0 < as_version_compare a b ↔ versionLexLt b a) ∧
    as_version_compare ⟨7, 1, 0, 2⟩ ⟨7, 1, 0, 3⟩ < 0 ∧
    0 < as_version_compare ⟨7, 2, 0, 0⟩ ⟨7, 1, 9, 9⟩ ∧
    as_version_compare ⟨1, 0, 0, 0⟩ ⟨1, 0, 0, 0⟩ = 0 := by
  obtain ⟨a1, a2, a3, a4⟩ := a
  obtain ⟨b1, b2, b3, b4⟩ := b
  refine ⟨?_, ?_, ?_, ?_, by decide, by decide, by decide⟩ <;>
    simp only [as_version_compare, firstNonzero, versionLexLt, AsVersion.mk.injEq,
      ne_eq] <;>
    split_ifs <;>
    omega

/-- C5 (counterexample).  For a vector of `2^29 + 1` elements of type
float64 (element size 8), `uint32_t` overflow makes the computed data size
`(2^29 + 1) * 8 % 2^32 = 8`: serialize succeeds but produces a 24-byte blob
instead of one of length `16 + (2^29 + 1) * 8`. -/
theorem c5_blob_layout_counterexample :
    as_ml_vector_serialize
        (AsVector.mk 8 (List.replicate 536870913 [1, 0, 0, 0, 0, 0, 0, 0])) 2 =
      .ok [86, 69, 67, 84, 0, 0, 0, 1, 32, 0, 0, 1, 0, 0, 0, 2,
           1, 0, 0, 0, 0, 0, 0, 0] ∧
    ([86, 69, 67, 84, 0, 0, 0, 1, 32, 0, 0, 1, 0, 0, 0, 2,
      1, 0, 0, 0, 0, 0, 0, 0] : List Nat).length ≠
      16 + (AsVector.mk 8 (List.replicate 536870913 [1, 0, 0, 0, 0, 0, 0, 0])).size *
        as_ml_vector_element_size 2 := by
  have hsize : (AsVector.mk 8 (List.replicate 536870913 [1, 0, 0, 0, 0, 0, 0, 0])).size =
      536870913 :=
    List.length_replicate _ _
  constructor
  · have hser := serialize_ok
      (AsVector.mk 8 (List.replicate 536870913 [1, 0, 0, 0, 0, 0, 0, 0])) 2
      (by rw [hsize]; omega) (by decide) (by decide)
    rw [hser, hsize]
    have htake :
        (AsVector.mk 8 (List.replicate 536870913 [1, 0, 0, 0, 0, 0, 0, 0])).list.take
          (536870913 * as_ml_vector_element_size 2 % 4294967296) =
          [1, 0, 0, 0, 0, 0, 0, 0] := by
      show (List.replicate 536870913 [1, 0, 0, 0, 0, 0, 0, 0]).flatten.take 8 = _
      rw [show (536870913 : Nat) = 536870912 + 1 from rfl, List.replicate_succ,
        List.flatten_cons]
      exact List.take_left' rfl
    rw [htake]
    decide
  · rw [hsize]
    decide

/-- C5 (amended).  For every vector and element type accepted by
`as_ml_vector_serialize` whose total size `16 + count * element_size` fits
`uint32_t`, the produced blob is exactly the 0x56454354 magic in big-endian
at bytes 0-3, the version 1 in big-endian at bytes 4-7, the count in
big-endian at bytes 8-11, the type tag in big-endian at bytes 12-15, and
the vector's flat buffer copied verbatim (native byte order); its length is
exactly `16 + count * element_size`.  Without the `uint32_t` bound the
length clause fails (`c5_blob_layout_counterexample`). -/
theorem c5_blob_layout_amended (v : AsVector) (t : Nat) (blob : List Nat)
    (hwf : ∀ it ∈ v.items, it.length = v.item_size)
    (hno : 16 + v.size * as_ml_vector_element_size t < 4294967296)
    (h : as_ml_vector_serialize v t = .ok blob) :
    blob = be32 AS_ML_VECTOR_MAGIC_NUMBER ++ be32 AS_ML_VECTOR_VERSION ++
      be32 v.size ++ be32 t ++ v.list ∧
    blob.length = 16 + v.size * as_ml_vector_element_size t := by
  obtain ⟨h1, h2, h3, hb⟩ := serialize_eq v t blob h
  obtain ⟨hes48, ht⟩ := element_size_pos t h2
  have hsz : v.size < 4294967296 := by
    rcases hes48 with h4 | h4 <;> rw [h4] at hno <;> omega
  have hlen : v.list.length = v.size * as_ml_vector_element_size t := by
    rw [list_length_of_wf v hwf, h3]
  have hdmod : v.size * as_ml_vector_element_size t % 4294967296 =
      v.size * as_ml_vector_element_size t := Nat.mod_eq_of_lt (by omega)
  have htake : v.list.take (v.size * as_ml_vector_element_size t % 4294967296) =
      v.list := by
    rw [hdmod]
    exact List.take_of_length_le (by omega)
  have hmod : v.size % 4294967296 = v.size := Nat.mod_eq_of_lt hsz
  have htmod : t % 4294967296 = t := Nat.mod_eq_of_lt ht
  constructor
  · rw [hb, hmod, htmod, htake]
  · rw [hb, hmod, htmod, htake]
    simp only [be32, List.length_append, List.length_cons, List.length_nil]
    omega

/-- Witness for `c5_blob_layout_amended` at a concrete vector. -/
theorem c5_blob_layout_amended_witness :
    ([86, 69, 67, 84, 0, 0, 0, 1, 0, 0, 0, 1, 0, 0, 0, 1, 9, 8, 7, 6] : List Nat) =
      be32 AS_ML_VECTOR_MAGIC_NUMBER ++ be32 AS_ML_VECTOR_VERSION ++
        be32 (AsVector.mk 4 [[9, 8, 7, 6]]).size ++ be32 1 ++
        (AsVector.mk 4 [[9, 8, 7, 6]]).list ∧
    ([86, 69, 67, 84, 0, 0, 0, 1, 0, 0, 0, 1, 0, 0, 0, 1, 9, 8, 7, 6] :
        List Nat).length =
      16 + (AsVector.mk 4 [[9, 8, 7, 6]]).size * as_ml_vector_element_size 1 :=
  c5_blob_layout_amended ⟨4, [[9, 8, 7, 6]]⟩ 1 _ (by decide) (by decide) (by decide)

/-- C1 (counterexample).  For a vector of `2^30` float32 elements the
`uint32_t` data size wraps to 0: serialize succeeds but emits a bare
16-byte header, and deserialize, although it reports success with the
original count and type, cannot return the original elements — the first
element it yields differs from the vector's first element. -/
theorem c1_roundtrip_counterexample :
    as_ml_vector_serialize (AsVector.mk 4 (List.replicate 1073741824 [1, 0, 0, 0])) 1 =
      .ok [86, 69, 67, 84, 0, 0, 0, 1, 64, 0, 0, 0, 0, 0, 0, 1] ∧
    (∃ w : AsVector,
      as_ml_vector_deserialize [86, 69, 67, 84, 0, 0, 0, 1, 64, 0, 0, 0, 0, 0, 0, 1] =
        .ok (w, 1) ∧
      w.items.getD 0 [] ≠
        (AsVector.mk 4 (List.replicate 1073741824 [1, 0, 0, 0])).items.getD 0 []) := by
  have hsize : (AsVector.mk 4 (List.replicate 1073741824 [1, 0, 0, 0])).size =
      1073741824 :=
    List.length_replicate _ _
  constructor
  · have hser := serialize_ok (AsVector.mk 4 (List.replicate 1073741824 [1, 0, 0, 0])) 1
      (by rw [hsize]; omega) (by decide) (by decide)
    rw [hser, hsize]
    have htake :
        (AsVector.mk 4 (List.replicate 1073741824 [1, 0, 0, 0])).list.take
          (1073741824 * as_ml_vector_element_size 1 % 4294967296) = [] := by
      rw [show 1073741824 * as_ml_vector_element_size 1 % 4294967296 = 0 from by decide]
      exact List.take_zero _
    rw [htake]
    decide
  · refine ⟨⟨4, readItems 1073741824 4 []⟩, rfl, ?_⟩
    show (readItems 1073741824 4 []).getD 0 [] ≠
      (List.replicate 1073741824 [1, 0, 0, 0]).getD 0 []
    rw [show (1073741824 : Nat) = 1073741823 + 1 from rfl, readItems,
      List.replicate_succ]
    simp only [List.getD_cons_zero]
    decide

/-- C1 (amended).  For every well-formed typed vector `v` with a supported
element type whose total encoded size `16 + count * element_size` fits
`uint32_t`, if `as_ml_vector_serialize` succeeds then
`as_ml_vector_deserialize` applied to the blob succeeds and returns exactly
`v` (same element type tag, same count, same element values).  Without the
`uint32_t` bound the guarantee fails (`c1_roundtrip_counterexample`). -/
theorem c1_roundtrip_amended (v : AsVector) (t : Nat) (blob : List Nat)
    (hwf : ∀ it ∈ v.items, it.length = v.item_size)
    (hno : 16 + v.size * as_ml_vector_element_size t < 4294967296)
    (h : as_ml_vector_serialize v t = .ok blob) :
    as_ml_vector_deserialize blob = .ok (v, t) := by
  obtain ⟨h1, h2, h3, hb⟩ := serialize_eq v t blob h
  obtain ⟨hes48, ht⟩ := element_size_pos t h2
  have hsz : v.size < 4294967296 := by
    rcases hes48 with h4 | h4 <;> rw [h4] at hno <;> omega
  have hlen : v.list.length = v.size * as_ml_vector_element_size t := by
    rw [list_length_of_wf v hwf, h3]
  have hdmod : v.size * as_ml_vector_element_size t % 4294967296 =
      v.size * as_ml_vector_element_size t := Nat.mod_eq_of_lt (by omega)
  have htake : v.list.take (v.size * as_ml_vector_element_size t % 4294967296) =
      v.list := by
    rw [hdmod]
    exact List.take_of_length_le (by omega)
  have hb' : blob = be32 AS_ML_VECTOR_MAGIC_NUMBER ++ (be32 AS_ML_VECTOR_VERSION ++
      (be32 v.size ++ (be32 t ++ v.list))) := by
    rw [hb, Nat.mod_eq_of_lt hsz, Nat.mod_eq_of_lt ht, htake]
    simp [List.append_assoc]
  obtain ⟨r0, r4, r8, r12, rdrop, rlen⟩ :=
    header_fields AS_ML_VECTOR_MAGIC_NUMBER AS_ML_VECTOR_VERSION v.size t v.list
      (by decide) (by decide) hsz ht
  rw [hb']
  unfold as_ml_vector_deserialize
  rw [rlen, r0, r4, r8, r12, rdrop]
  rw [if_neg (by omega), if_neg (by simp), if_neg (by simp), if_neg h2,
    if_neg (by rw [hdmod, Nat.mod_eq_of_lt hno]; omega)]
  have hv : (⟨as_ml_vector_element_size t,
      readItems v.size (as_ml_vector_element_size t) v.list⟩ : AsVector) = v := by
    rw [← h3]
    show (⟨v.item_size, readItems v.items.length v.item_size v.items.flatten⟩ :
      AsVector) = v
    rw [readItems_flatten v.item_size v.items hwf]
  rw [hv]

/-- Witness for `c1_roundtrip_amended` at a concrete two-element int32
vector. -/
theorem c1_roundtrip_amended_witness :
    as_ml_vector_deserialize
      [86, 69, 67, 84, 0, 0, 0, 1, 0, 0, 0, 2, 0, 0, 0, 3, 1, 2, 3, 4, 5, 6, 7, 8] =
      .ok (⟨4, [[1, 2, 3, 4], [5, 6, 7, 8]]⟩, 3) :=
  c1_roundtrip_amended ⟨4, [[1, 2, 3, 4], [5, 6, 7, 8]]⟩ 3 _ (by decide) (by decide)
    (by decide)

/-- `decimalDigitsCore` never returns an empty digit string. -/
theorem decimalDigitsCore_ne_nil (fuel n : Nat) (h : n < fuel) :
    decimalDigitsCore fuel n ≠ [] := by
  cases fuel with
  | zero => omega
  | succ f =>
    rw [decimalDigitsCore]
    split_ifs <;> simp

/-- Every byte produced by `decimalDigitsCore` is a decimal digit. -/
theorem decimalDigitsCore_digits (fuel : Nat) :
    ∀ n, n < fuel → ∀ b ∈ decimalDigitsCore fuel n, cIsDigit b = true := by
  induction fuel with
  | zero => intro n h; omega
  | succ f ih =>
    intro n h b hb
    rw [decimalDigitsCore] at hb
    split_ifs at hb with h10
    · rw [List.mem_singleton] at hb
      subst hb
      simp only [cIsDigit, Bool.and_eq_true, decide_eq_true_eq]
      omega
    · rw [List.mem_append, List.mem_singleton] at hb
      rcases hb with hb | hb
      · exact ih (n / 10) (by omega) b hb
      · subst hb
        simp only [cIsDigit, Bool.and_eq_true, decide_eq_true_eq]
        omega

/-- Appending one digit multiplies the accumulated value by ten. -/
theorem digitsToNat_append_digit (ds : List Nat) (b : Nat) :
    digitsToNat (ds ++ [b]) = 10 * digitsToNat ds + (b - 48) := by
  simp only [digitsToNat, List.foldl_append, List.foldl_cons, List.foldl_nil]
  omega

/-- Reading back the decimal rendering recovers the value. -/
theorem decimalDigitsCore_value (fuel : Nat) :
    ∀ n, n < fuel → digitsToNat (decimalDigitsCore fuel n) = n := by
  induction fuel with
  | zero => intro n h; omega
  | succ f ih =>
    intro n h
    rw [decimalDigitsCore]
    split_ifs with h10
    · simp only [digitsToNat, List.foldl_cons, List.foldl_nil]
      omega
    · rw [digitsToNat_append_digit, ih (n / 10) (by omega)]
      omega

/-- A value below `10^k` renders in at most `k` digits. -/
theorem decimalDigitsCore_length (fuel : Nat) :
    ∀ n k, n < fuel → n < 10 ^ k → 0 < k →
      (decimalDigitsCore fuel n).length ≤ k := by
  induction fuel with
  | zero => intro n k h _ _; omega
  | succ f ih =>
    intro n k h hk hk0
    rw [decimalDigitsCore]
    split_ifs with h10
    · simpa using hk0
    · have hdiv : n / 10 < 10 ^ (k - 1) := by
        have hk2 : 2 ≤ k := by
          rcases Nat.lt_or_ge k 2 with hlt | hge
          · have hk1 : k = 1 := by omega
            subst hk1
            simp at hk
            omega
          · exact hge
        rw [Nat.div_lt_iff_lt_mul (by omega)]
        calc n < 10 ^ k := hk
          _ = 10 ^ (k - 1) * 10 := by
            rw [← Nat.pow_succ]
            congr 1
            omega
      have hk2 : 2 ≤ k := by
        rcases Nat.lt_or_ge k 2 with hlt | hge
        · have hk1 : k = 1 := by omega
          subst hk1
          simp at hk
          omega
        · exact hge
      have hlen := ih (n / 10) (k - 1) (by omega) hdiv (by omega)
      simp only [List.length_append, List.length_cons, List.length_nil]
      omega

/-- `decimalDigits` produces only digits. -/
theorem decimalDigits_digits (n : Nat) : ∀ b ∈ decimalDigits n, cIsDigit b = true :=
  decimalDigitsCore_digits (n + 1) n (by omega)

/-- `decimalDigits` is never empty. -/
theorem decimalDigits_ne_nil (n : Nat) : decimalDigits n ≠ [] :=
  decimalDigitsCore_ne_nil (n + 1) n (by omega)

/-- `digitsToNat` inverts `decimalDigits`. -/
theorem decimalDigits_value (n : Nat) : digitsToNat (decimalDigits n) = n :=
  decimalDigitsCore_value (n + 1) n (by omega)

/-- A `uint16_t` value renders in at most five digits. -/
theorem decimalDigits_length_le (n : Nat) (h : n < 65536) :
    (decimalDigits n).length ≤ 5 := by
  have h5 : (10 : Nat) ^ 5 = 100000 := by norm_num
  exact decimalDigitsCore_length (n + 1) n 5 (by omega) (by rw [h5]; omega) (by omega)

/-- `takeWhile` keeps a list all of whose elements satisfy the predicate. -/
theorem takeWhile_of_all (p : Nat → Bool) (l : List Nat)
    (h : ∀ b ∈ l, p b = true) : l.takeWhile p = l := by
  simpa using @List.takeWhile_append_of_pos Nat p l [] h

/-- `%hu` on a buffer beginning with a nonempty digit run: the run is
consumed and its value (wrapped to `uint16_t`) returned. -/
theorem scanHu_digits_run (ds rest : List Nat) (hne : ds ≠ [])
    (hds : ∀ b ∈ ds, cIsDigit b = true)
    (hrest : (rest.head?.all fun b => ! cIsDigit b) = true) :
    scanHu (ds ++ rest) = some (digitsToNat ds % 65536, rest) := by
  have htw : (ds ++ rest).takeWhile cIsDigit = ds := by
    rw [List.takeWhile_append_of_pos hds]
    cases rest with
    | nil => simp
    | cons b r =>
      simp only [List.head?_cons, Option.all_some, Bool.not_eq_true'] at hrest
      rw [List.takeWhile_cons_of_neg (by simp [hrest]), List.append_nil]
  have hie : ds.isEmpty = false := by
    cases ds with
    | nil => exact absurd rfl hne
    | cons a l => rfl
  simp only [scanHu, htw, hie, Bool.false_eq_true, if_false]
  rw [List.drop_left]

/-- A `".%hu"` directive on a buffer beginning with a dot. -/
theorem scanDotHu_dot (r : List Nat) : scanDotHu (46 :: r) = scanHu r := by
  simp [scanDotHu]

/-- C10.  `as_version_to_string` renders all four components as
`major.minor.patch.build` in plain decimal with no padding, for every
version value: concretely `to_string (parse "7.1.0.2") = "7.1.0.2"`, and in
general parsing the rendering of any version value (components in the
`uint16_t` range, as in the C struct) returns exactly that value. -/
theorem c10_to_string :
    Option.map as_version_to_string (as_version_from_string (strBytes "7.1.0.2")) =
      some (strBytes "7.1.0.2") ∧
    (∀ v : AsVersion, v.major < 65536 → v.minor < 65536 → v.patch < 65536 →
      v.build < 65536 →
      as_version_from_string (as_version_to_string v) = some v) := by
  refine ⟨by decide, ?_⟩
  rintro ⟨m1, m2, m3, m4⟩ h1 h2 h3 h4
  have hdd : ∀ b, cIsDigit b = true → cIsDigitDot b = true := by
    intro b hb
    simp [cIsDigitDot, hb]
  have hS : as_version_to_string ⟨m1, m2, m3, m4⟩ =
      decimalDigits m1 ++ (46 :: (decimalDigits m2 ++ (46 :: (decimalDigits m3 ++
        (46 :: decimalDigits m4))))) := by
    simp only [as_version_to_string, List.append_assoc, List.cons_append]
  have key : ∀ (m : Nat) (rest : List Nat), m < 65536 →
      (rest.head?.all fun b => ! cIsDigit b) = true →
      scanHu (decimalDigits m ++ rest) = some (m, rest) := by
    intro m rest hm hr
    rw [scanHu_digits_run (decimalDigits m) rest (decimalDigits_ne_nil m)
      (decimalDigits_digits m) hr, decimalDigits_value, Nat.mod_eq_of_lt hm]
  have hdot : ∀ r : List Nat, ((46 :: r).head?.all fun b => ! cIsDigit b) = true := by
    intro r
    rfl
  have e4 : scanHu (decimalDigits m4) = some (m4, []) := by
    have h := key m4 [] h4 rfl
    simpa using h
  have e3 : scanHu (decimalDigits m3 ++ (46 :: decimalDigits m4)) =
      some (m3, 46 :: decimalDigits m4) := key m3 _ h3 (hdot _)
  have e2 : scanHu (decimalDigits m2 ++ (46 :: (decimalDigits m3 ++
      (46 :: decimalDigits m4)))) =
      some (m2, 46 :: (decimalDigits m3 ++ (46 :: decimalDigits m4))) :=
    key m2 _ h2 (hdot _)
  have e1 : scanHu (decimalDigits m1 ++ (46 :: (decimalDigits m2 ++ (46 ::
      (decimalDigits m3 ++ (46 :: decimalDigits m4)))))) =
      some (m1, 46 :: (decimalDigits m2 ++ (46 :: (decimalDigits m3 ++
        (46 :: decimalDigits m4))))) :=
    key m1 _ h1 (hdot _)
  have hscan : sscanf4hu (decimalDigits m1 ++ (46 :: (decimalDigits m2 ++ (46 ::
      (decimalDigits m3 ++ (46 :: decimalDigits m4)))))) = [m1, m2, m3, m4] := by
    simp only [sscanf4hu, e1, scanDotHu_dot, e2, e3, e4]
  obtain ⟨c, t1, hc⟩ := List.exists_cons_of_ne_nil (decimalDigits_ne_nil m1)
  have hcdig : cIsDigit c = true := by
    apply decimalDigits_digits m1
    rw [hc]
    exact List.mem_cons_self c t1
  have hcsp : cIsSpace c = false := cIsDigitDot_not_space (hdd c hcdig)
  have hdrop : (decimalDigits m1 ++ (46 :: (decimalDigits m2 ++ (46 ::
      (decimalDigits m3 ++ (46 :: decimalDigits m4)))))).dropWhile cIsSpace =
      decimalDigits m1 ++ (46 :: (decimalDigits m2 ++ (46 ::
        (decimalDigits m3 ++ (46 :: decimalDigits m4))))) := by
    rw [hc, List.cons_append, List.dropWhile_cons, hcsp]
    simp
  have hmem : ∀ b ∈ decimalDigits m1 ++ (46 :: (decimalDigits m2 ++ (46 ::
      (decimalDigits m3 ++ (46 :: decimalDigits m4))))), cIsDigitDot b = true := by
    intro b hb
    simp only [List.mem_append, List.mem_cons] at hb
    rcases hb with hb | hb | hb | hb | hb | hb | hb
    · exact hdd b (decimalDigits_digits m1 b hb)
    · subst hb; rfl
    · exact hdd b (decimalDigits_digits m2 b hb)
    · subst hb; rfl
    · exact hdd b (decimalDigits_digits m3 b hb)
    · subst hb; rfl
    · exact hdd b (decimalDigits_digits m4 b hb)
  have htw := takeWhile_of_all cIsDigitDot _ hmem
  have htk : (decimalDigits m1 ++ (46 :: (decimalDigits m2 ++ (46 ::
      (decimalDigits m3 ++ (46 :: decimalDigits m4)))))).take 63 =
      decimalDigits m1 ++ (46 :: (decimalDigits m2 ++ (46 ::
        (decimalDigits m3 ++ (46 :: decimalDigits m4))))) := by
    apply List.take_of_length_le
    have l1 := decimalDigits_length_le m1 h1
    have l2 := decimalDigits_length_le m2 h2
    have l3 := decimalDigits_length_le m3 h3
    have l4 := decimalDigits_length_le m4 h4
    simp only [List.length_append, List.length_cons]
    omega
  rw [hS]
  unfold as_version_from_string as_version_from_string_st
  simp only [hdrop, htw, htk, hscan]
  rfl

/-- Witness for `c10_to_string` at the concrete version `(7, 1, 0, 2)`. -/
theorem c10_to_string_witness :
    as_version_from_string (as_version_to_string ⟨7, 1, 0, 2⟩) =
      some ⟨7, 1, 0, 2⟩ :=
  c10_to_string.2 ⟨7, 1, 0, 2⟩ (by decide) (by decide) (by decide) (by decide)

end AerospikeSpec
